import Mathlib

/-!
Verification development for the autohost HTTP adapter
(`src/http/adapter.js`): the request-dispatch and authorization pipeline.

The embedding models JavaScript values by their observable shape (truthiness
and the presence of a continuation method), the metrics collaborator by the
trace of counter/timer record calls it receives, the envelope collaborator by
the trace of outcome-handler calls, and the transport response object by an
explicit state record.  Promises are modelled by their settled outcome; the
single-threaded event-loop execution of one request is flattened into the
ordered trace of the side effects it performs.
-/

namespace Autohost

/-- A JavaScript value as observed by the dispatcher: only truthiness and the
presence of a `then` method matter.  `deferred isRejected v` models a promise
settling with value `v` (fulfilled when `isRejected = false`, rejected
otherwise); `errObj msg` models a caught `Error` object (truthy, no `then`). -/
inductive JSValue where
  | undefined
  | null
  | bool (b : Bool)
  | num (n : Int)
  | str (s : String)
  | obj
  | errObj (msg : String)
  | deferred (isRejected : Bool) (v : JSValue)
deriving DecidableEq

/-- JavaScript truthiness, as tested by `if ( result )` in `respond`. -/
def truthy : JSValue → Bool
  | .undefined => false
  | .null => false
  | .bool b => b
  | .num n => n != 0
  | .str s => !s.isEmpty
  | .obj => true
  | .errObj _ => true
  | .deferred _ _ => true

/-- Presence of a continuation method, as tested by `if ( result.then )`. -/
def hasThen : JSValue → Bool
  | .deferred _ _ => true
  | _ => false

/-- One observable side effect of processing a request: a metrics record call,
a handler invocation, or a call to the envelope's outcome handler
(`envelope.handleReturn`).  The five auth events correspond to the
`HTTP_AUTHORIZATION_ATTEMPTS / GRANTED / REJECTED / ERRORS / DURATION`
records; `apiTimer` is the `HTTP_API_DURATION` record. -/
inductive Event where
  | authAttempt
  | authGrant
  | authReject
  | authError
  | authTimer
  | apiTimer
  | handlerRun
  | envelopeReturn (v : JSValue)
deriving DecidableEq

/-- Number of occurrences of an event in a trace. -/
def countEvent (e : Event) : List Event → Nat
  | [] => 0
  | x :: xs => (if x = e then 1 else 0) + countEvent e xs

/-- Lines 130-139 of adapter.js: the result-normalization step of `respond`.
`if ( result )` then, for a deferred result, `result.then( onResult, onResult )`
where `onResult x = envelope.handleReturn( ..., x )`; for a plain value,
`envelope.handleReturn( ..., result )` directly. -/
def normalizeResult (result : JSValue) : List Event :=
  if truthy result then
    if hasThen result then
      match result with
      | .deferred _ v => [Event.envelopeReturn v]
      | _ => []
    else [Event.envelopeReturn result]
  else []

/-- What the action handler does when invoked: return a value (with `undefined`
for a handler that returns nothing) or throw synchronously. -/
inductive HandlerBehavior where
  | returns (v : JSValue)
  | throws (msg : String)
deriving DecidableEq

/-- Lines 116-140 of adapter.js (`respond`): invoke the handler, absorbing a
synchronous throw into the result when `handleErrors` is set (source:
`meta.handleErrors`), then normalize the result.  Returns the trace of
events together with the uncaught exception, if any, escaping to the
caller. -/
def respond (handleErrors : Bool) (h : HandlerBehavior) : List Event × Option String :=
  match handleErrors, h with
  | true, .returns v => (Event.handlerRun :: normalizeResult v, none)
  | true, .throws e => (Event.handlerRun :: normalizeResult (.errObj e), none)
  | false, .returns v => (Event.handlerRun :: normalizeResult v, none)
  | false, .throws e => ([Event.handlerRun], some e)

example : normalizeResult (.bool false) = [] := by decide
example : normalizeResult (.str "x") = [Event.envelopeReturn (.str "x")] := by decide
example : normalizeResult (.deferred true .obj) = [Event.envelopeReturn .obj] := by decide
example : respond false (.throws "boom") = ([Event.handlerRun], some "boom") := by decide

/-- Strip leading and trailing slash characters from a string. -/
def trimSlashes (s : String) : String :=
  ⟨((s.data.dropWhile (fun c => c == '/')).reverse.dropWhile (fun c => c == '/')).reverse⟩

/-- Modelled from the spec: the transport's URL-join utility
(`state.http.buildUrl`, implemented in src/http/http.js, which is not among
the sources).  Per the spec it concatenates the given parts "using the
transport's URL-join convention"; modelled as joining the non-empty parts
with single slashes under a single leading slash, which matches the spec's
worked examples. -/
def buildUrl (parts : List String) : String :=
  "/" ++ String.intercalate "/" ((parts.map trimSlashes).filter (fun p => !p.isEmpty))

/-- JavaScript `String.prototype.indexOf` on character lists: index of the
first occurrence of `pat` in `s`, or `-1` when there is none. -/
def strIndexOf (s pat : String) : Int :=
  match (List.range (s.data.length + 1)).find?
      (fun i => (s.data.drop i).take pat.data.length == pat.data) with
  | some i => (i : Int)
  | none => -1

example : strIndexOf "abc" "b" = 1 := by decide
example : strIndexOf "abc" "" = 0 := by decide
example : strIndexOf "abc" "z" = -1 := by decide
example : buildUrl ["api", "", "", "/widgets/:id"] = "/api/widgets/:id" := by decide

/-- An action's url: absent, a literal string, or a RegExp pattern
(source: `action.url`). -/
inductive ActionUrl where
  | absent
  | str (s : String)
  | pattern (r : String)
deriving DecidableEq

/-- An action definition (source: `{ method, url, handle }`; the handler's
behavior is supplied separately to the dispatch model). -/
structure ActionDef where
  method : String
  url : ActionUrl
deriving DecidableEq

/-- A resource definition as consumed by the route builder.  `apiBase` and
`urlBase` model the source fields named after the api and url path bases
(`resource.apiPrefix` / `resource.urlPrefix` in adapter.js); `none` models
an undefined field. -/
structure ResourceDef where
  name : String
  apiBase : Option String
  urlBase : Option String
deriving DecidableEq

/-- The adapter configuration (source: `state.config`).  `apiBase` models
`config.apiPrefix`, `urlBase` models `config.urlPrefix`; `none` models an
undefined field.  `urlStrategy` is the optional custom URL-strategy
function called with `(resourceName, actionName, action, resources)`. -/
structure Config where
  apiBase : Option String
  urlBase : Option String
  urlStrategy : Option (String → String → ActionDef → List ResourceDef → String)
  handleRouteErrors : Bool

/-- Modelled from the spec: `regex.prefix` from src/http/regex.js (not among
the sources); per the spec the pattern is prefixed with the joined url and
api bases.  Modelled as plain concatenation. -/
def regexPre (p : String) (r : String) : String := p ++ r

/-- Lines 108-114 of adapter.js (`hasPrefix`): whether `url` starts with the
configured base path, built from `config.urlPrefix || ''` and
`config.apiPrefix || ''`. -/
def hasBase (cfg : Config) (url : String) : Bool :=
  strIndexOf url (buildUrl [cfg.urlBase.getD "", cfg.apiBase.getD ""]) == 0

/-- Lines 8-34 of adapter.js (`buildActionUrl`): pick the api base (resource
override, else config, else `"api"`); then dispatch on the url shape:
RegExp pattern → prefix the pattern; custom strategy → call it and skip the
base when the returned url already carries the configured base; default
heuristic → drop the resource-name segment when `action.url.indexOf(
resourceName )` is `0` or `1` (with `-1` for a falsy url). -/
def buildActionUrl (cfg : Config) (resourceName actionName : String)
    (action : ActionDef) (resource : ResourceDef)
    (resources : List ResourceDef) : String :=
  let base :=
    match resource.apiBase with
    | some p => p
    | none =>
      match cfg.apiBase with
      | some p => p
      | none => "api"
  match action.url with
  | .pattern r => regexPre (buildUrl [cfg.urlBase.getD "", base]) r
  | u =>
    match cfg.urlStrategy with
    | some strategy =>
      let url := strategy resourceName actionName action resources
      let base2 := if hasBase cfg url then "" else base
      buildUrl [base2, url]
    | none =>
      let urlStr := match u with | .str s => s | _ => ""
      let resourceIndex : Int :=
        if urlStr.isEmpty then -1 else strIndexOf urlStr resourceName
      let resourceSeg :=
        if resourceIndex == 0 || resourceIndex == 1 then "" else resourceName
      buildUrl [base, resource.urlBase.getD "", resourceSeg, urlStr]

/-- Lines 36-38 of adapter.js (`buildActionAlias`):
`[ resourceName, actionName ].join( '.' )`. -/
def buildActionAlias (resourceName actionName : String) : String :=
  String.intercalate "." [resourceName, actionName]

example :
    buildActionUrl ⟨none, none, none, false⟩ "widgets" "list"
      ⟨"get", .str ""⟩ ⟨"widgets", none, none⟩ [] = "/api/widgets" := by decide

example :
    buildActionUrl ⟨none, none, none, false⟩ "widgets" "get"
      ⟨"get", .str "/widgets/:id"⟩ ⟨"widgets", none, none⟩ [] = "/api/widgets/:id" := by
  decide

/-- The transport response object, as touched by the dispatcher:
`headerSent` models `res._headerSent`, `sent` the list of
`res.status( c ).send( b )` calls performed, and `finishListeners` the number
of once-listeners registered on the `finish` event (each one records the
per-request duration timer). -/
structure Res where
  headerSent : Bool
  sent : List (Nat × String)
  finishListeners : Nat
deriving DecidableEq

/-- Lines 182-184 of adapter.js: `res.once` on the finish event, registering
the `HTTP_API_DURATION` timer record. -/
def Res.onceFinish (r : Res) : Res :=
  { r with finishListeners := r.finishListeners + 1 }

/-- Line 200 of adapter.js: `res.status( c ).send( b )`. -/
def Res.sendStatus (r : Res) (c : Nat) (b : String) : Res :=
  { r with headerSent := true, sent := r.sent ++ [(c, b)] }

/-- The response completing: every registered once-listener fires exactly
once (each recording `HTTP_API_DURATION`) and is then removed. -/
def Res.finish (r : Res) : List Event × Res :=
  (List.replicate r.finishListeners Event.apiTimer, { r with finishListeners := 0 })

/-- The settled outcome of the authorization provider's
`checkPermission( user, action, context )` promise: resolved with a grant
decision, or rejected with an error. -/
inductive ProviderOutcome where
  | resolved (granted : Bool)
  | rejected (err : String)
deriving DecidableEq

/-- Lines 51-69 of adapter.js (`checkPermissionFor`): record an attempt
counter, start the authorization timer, delegate to the provider, then in
`onPermission` record the timer and return the granted boolean, and in
`onError` record the error counter, record the timer, and return `false`.
Returns the boolean the gate's promise resolves to together with the trace
of metrics events, in execution order. -/
def checkPermissionFor (p : ProviderOutcome) : Bool × List Event :=
  match p with
  | .resolved g => (g, [Event.authAttempt, Event.authTimer])
  | .rejected _ => (false, [Event.authAttempt, Event.authError, Event.authTimer])

/-- Lines 91-93 of adapter.js (`meta.getPermissionCheck`): `state.auth ?
checkPermissionFor.bind( undefined, state, req.user, req.context ) :
undefined`.  The bound closure is modelled by the gate computation it would
perform. -/
def getPermissionCheck (auth : Option ProviderOutcome) :
    Option (Unit → Bool × List Event) :=
  match auth with
  | some p => some (fun _ => checkPermissionFor p)
  | none => none

/-- The per-action metadata fields the dispatcher consumes (source:
`getActionMetadata`): the dotted alias, the error-handling strategy flag
copied from configuration, and the computed url. -/
structure ActionMetadata where
  aliasName : String
  handleErrors : Bool
  url : String

/-- Lines 71-102 of adapter.js (`getActionMetadata`), restricted to the
fields the dispatch path reads: `alias` from `buildActionAlias`,
`handleErrors` copied from `config.handleRouteErrors` at wiring time, and
the url from `buildActionUrl`. -/
def getActionMetadata (cfg : Config) (resource : ResourceDef)
    (actionName : String) (action : ActionDef)
    (resources : List ResourceDef) : ActionMetadata :=
  { aliasName := buildActionAlias resource.name actionName,
    handleErrors := cfg.handleRouteErrors,
    url := buildActionUrl cfg resource.name actionName action resource resources }

/-- The observable outcome of dispatching one request: the ordered trace of
events, the final response state, the exception (if any) escaping the
dispatcher uncaught, and the permission-check closure stored on the request
(`req._checkPermission`; `none` models `undefined`). -/
structure DispatchResult where
  events : List Event
  res : Res
  uncaught : Option String
  reqCheckPermission : Option (Unit → Bool × List Event)

/-- Lines 176-206 of adapter.js: the route handler wired by `wireupAction`.
Attach the permission-check closure to the request, register the duration
timer on response finish; with an authorization provider, call
`meta.authAttempted()`, run the gate, and on grant record the grant counter
and respond, on denial record the reject counter and send the 403 only when
no header has been sent; with no provider, respond directly. -/
def dispatch (auth : Option ProviderOutcome) (meta : ActionMetadata)
    (h : HandlerBehavior) (res0 : Res) : DispatchResult :=
  let check := getPermissionCheck auth
  let res1 := res0.onceFinish
  match auth with
  | some p =>
    let gate := checkPermissionFor p
    if gate.1 then
      let r := respond meta.handleErrors h
      { events := Event.authAttempt :: (gate.2 ++ Event.authGrant :: r.1),
        res := res1, uncaught := r.2, reqCheckPermission := check }
    else
      if res1.headerSent then
        { events := Event.authAttempt :: (gate.2 ++ [Event.authReject]),
          res := res1, uncaught := none, reqCheckPermission := check }
      else
        { events := Event.authAttempt :: (gate.2 ++ [Event.authReject]),
          res := res1.sendStatus 403 "User lacks sufficient permissions",
          uncaught := none, reqCheckPermission := check }
  | none =>
    let r := respond meta.handleErrors h
    { events := r.1, res := res1, uncaught := r.2, reqCheckPermission := check }

example :
    (dispatch (some (.resolved false)) ⟨"widgets.get", false, "/api/widgets/:id"⟩
        (.returns .undefined) ⟨false, [], 0⟩).events =
      [Event.authAttempt, Event.authAttempt, Event.authTimer, Event.authReject] := by
  decide

example :
    (dispatch (some (.resolved false)) ⟨"widgets.get", false, "/api/widgets/:id"⟩
        (.returns .undefined) ⟨false, [], 0⟩).res.sent =
      [(403, "User lacks sufficient permissions")] := by decide

example :
    (dispatch (some (.rejected "db down")) ⟨"a.b", false, "/u"⟩
        (.returns .obj) ⟨false, [], 0⟩).events =
      [Event.authAttempt, Event.authAttempt, Event.authError, Event.authTimer,
        Event.authReject] := by decide

example :
    (dispatch (some (.resolved true)) ⟨"a.b", false, "/u"⟩
        (.returns .obj) ⟨false, [], 0⟩).events =
      [Event.authAttempt, Event.authAttempt, Event.authTimer, Event.authGrant,
        Event.handlerRun, Event.envelopeReturn .obj] := by decide

/-- Turn an optional literal url into the action url shape (`none` models an
undefined `action.url`). -/
def actionUrlOfOpt : Option String → ActionUrl
  | some s => .str s
  | none => .absent

/-- Split a character list into the chunks separated by slashes. -/
def segsAux : List Char → List Char → List String
  | [], acc => [⟨acc.reverse⟩]
  | c :: rest, acc =>
    if c == '/' then ⟨acc.reverse⟩ :: segsAux rest []
    else segsAux rest (c :: acc)

/-- The non-empty slash-separated path segments of a url string. -/
def pathSegments (s : String) : List String :=
  (segsAux s.data []).filter (fun p => !p.isEmpty)

/-- Follows the claim's wording (not the source): the action url "already
begins with resourceName at its first or second path segment", read as the
first or second path segment being the resource name. -/
def specBeginsAtFirstOrSecondSeg (resourceName url : String) : Bool :=
  (pathSegments url).get? 0 == some resourceName ||
    (pathSegments url).get? 1 == some resourceName

example : specBeginsAtFirstOrSecondSeg "widgets" "/widgets/:id" = true := by decide
example : specBeginsAtFirstOrSecondSeg "widgets" "widgets/:id" = true := by decide
example : specBeginsAtFirstOrSecondSeg "widgets" "/x/widgets/:id" = true := by decide

/-- The normalization step only ever emits outcome-handler calls. -/
theorem countEvent_normalize_eq_zero (e : Event) (v : JSValue)
    (he : ∀ w, Event.envelopeReturn w ≠ e) :
    countEvent e (normalizeResult v) = 0 := by
  cases v <;>
    simp [normalizeResult, truthy, hasThen, countEvent, he] <;>
    split <;> simp [countEvent, he]

/-- The handler is invoked exactly once per `respond` call, on either error
strategy and for every handler behavior. -/
theorem countEvent_respond_handlerRun (hE : Bool) (h : HandlerBehavior) :
    countEvent .handlerRun (respond hE h).1 = 1 := by
  have hz : ∀ v, countEvent .handlerRun (normalizeResult v) = 0 := fun v =>
    countEvent_normalize_eq_zero _ v (by intro w; simp)
  cases hE <;> cases h <;> simp [respond, countEvent, hz]

/-- `respond` emits no metrics events: only handler and envelope events. -/
theorem countEvent_respond_eq_zero (e : Event) (hE : Bool) (h : HandlerBehavior)
    (he : ∀ w, Event.envelopeReturn w ≠ e) (hh : Event.handlerRun ≠ e) :
    countEvent e (respond hE h).1 = 0 := by
  have hz : ∀ v, countEvent e (normalizeResult v) = 0 := fun v =>
    countEvent_normalize_eq_zero _ v he
  cases hE <;> cases h <;> simp [respond, countEvent, hz, hh, he]

/-- C1: when the provider's `checkPermission` promise rejects, the gate
resolves to `false` rather than propagating the error, records the
authorization-error counter exactly once and the authorization duration
timer exactly once, and the request's outcome is indistinguishable from a
provider that resolved `false` — same response state, same uncaught status,
and the same event trace apart from the single extra error-counter
record. -/
theorem auth_gate_fail_closed (e : String) (meta : ActionMetadata)
    (h : HandlerBehavior) (r : Res) :
    (checkPermissionFor (.rejected e)).1 = false ∧
    countEvent .authError (dispatch (some (.rejected e)) meta h r).events = 1 ∧
    countEvent .authTimer (dispatch (some (.rejected e)) meta h r).events = 1 ∧
    (dispatch (some (.rejected e)) meta h r).uncaught = none ∧
    (dispatch (some (.rejected e)) meta h r).res =
      (dispatch (some (.resolved false)) meta h r).res ∧
    ((dispatch (some (.rejected e)) meta h r).events).erase .authError =
      (dispatch (some (.resolved false)) meta h r).events := by
  by_cases hh : r.headerSent <;>
    simp [dispatch, checkPermissionFor, getPermissionCheck, Res.onceFinish,
      Res.sendStatus, countEvent, hh, List.erase] <;> decide

/-- C2 (amended): a provider resolving `false` means the handler never runs,
the reject counter records exactly once, the attempt counter records exactly
twice (once by the route handler, once inside the gate), nothing escapes
uncaught, and exactly one response — status 403 with body
"User lacks sufficient permissions" — is sent, and only when no response
headers had been sent yet. -/
theorem denied_request_behavior (meta : ActionMetadata) (h : HandlerBehavior)
    (r : Res) :
    countEvent .handlerRun
        (dispatch (some (.resolved false)) meta h r).events = 0 ∧
    countEvent .authReject
        (dispatch (some (.resolved false)) meta h r).events = 1 ∧
    countEvent .authAttempt
        (dispatch (some (.resolved false)) meta h r).events = 2 ∧
    (dispatch (some (.resolved false)) meta h r).res.sent =
      r.sent ++ (if r.headerSent then []
        else [(403, "User lacks sufficient permissions")]) ∧
    (dispatch (some (.resolved false)) meta h r).uncaught = none := by
  by_cases hh : r.headerSent <;>
    simp [dispatch, checkPermissionFor, getPermissionCheck, Res.onceFinish,
      Res.sendStatus, countEvent, hh]

/-- C2 counterexample: on a denied request the attempt counter does not
record exactly once — the route handler records it and the gate records it
again, so it records twice. -/
theorem denied_attempt_counter_cex :
    countEvent .authAttempt
        (dispatch (some (.resolved false)) ⟨"widgets.get", false, "/api/widgets"⟩
          (.returns .undefined) ⟨false, [], 0⟩).events = 2 ∧
    countEvent .authAttempt
        (dispatch (some (.resolved false)) ⟨"widgets.get", false, "/api/widgets"⟩
          (.returns .undefined) ⟨false, [], 0⟩).events ≠ 1 := by decide

/-- C3 (amended): a provider resolving `true` means the handler runs exactly
once, the grant counter records exactly once, the attempt counter records
exactly twice (once by the route handler, once inside the gate), and no 403
— indeed no response at all — is produced by the dispatcher for that
request. -/
theorem granted_request_behavior (meta : ActionMetadata) (h : HandlerBehavior)
    (r : Res) :
    countEvent .handlerRun
        (dispatch (some (.resolved true)) meta h r).events = 1 ∧
    countEvent .authGrant
        (dispatch (some (.resolved true)) meta h r).events = 1 ∧
    countEvent .authAttempt
        (dispatch (some (.resolved true)) meta h r).events = 2 ∧
    (dispatch (some (.resolved true)) meta h r).res.sent = r.sent := by
  have h1 := countEvent_respond_handlerRun meta.handleErrors h
  have h2 := countEvent_respond_eq_zero .authGrant meta.handleErrors h
    (by intro w; simp) (by simp)
  have h3 := countEvent_respond_eq_zero .authAttempt meta.handleErrors h
    (by intro w; simp) (by simp)
  simp [dispatch, checkPermissionFor, getPermissionCheck, Res.onceFinish,
    countEvent, h1, h2, h3]

/-- C3 counterexample: on a granted request the attempt counter does not
record exactly once — it records twice. -/
theorem granted_attempt_counter_cex :
    countEvent .authAttempt
        (dispatch (some (.resolved true)) ⟨"widgets.get", false, "/api/widgets"⟩
          (.returns .undefined) ⟨false, [], 0⟩).events = 2 ∧
    countEvent .authAttempt
        (dispatch (some (.resolved true)) ⟨"widgets.get", false, "/api/widgets"⟩
          (.returns .undefined) ⟨false, [], 0⟩).events ≠ 1 := by decide

/-- C4 counterexample: `false` is a plain (non-deferred) value, yet a handler
returning it does not have it forwarded to the envelope's outcome handler —
the dispatcher takes no further action. -/
theorem plain_false_not_forwarded_cex :
    hasThen (.bool false) = false ∧
    (respond true (.returns (.bool false))).1 = [Event.handlerRun] ∧
    countEvent (.envelopeReturn (.bool false))
      (respond true (.returns (.bool false))).1 = 0 := by decide

/-- C4 (amended): a deferred handler result has both its fulfilled and its
rejected value forwarded, through the same continuation, to the envelope's
outcome handler; a plain truthy value is forwarded directly; a handler that
returns nothing — or any falsy value — causes no outcome-handler call at
all. -/
theorem result_forwarding_amended (v : JSValue) (hE : Bool) :
    (respond hE (.returns (.deferred false v))).1 =
      [Event.handlerRun, Event.envelopeReturn v] ∧
    (respond hE (.returns (.deferred true v))).1 =
      [Event.handlerRun, Event.envelopeReturn v] ∧
    (truthy v = true → hasThen v = false →
      (respond hE (.returns v)).1 = [Event.handlerRun, Event.envelopeReturn v]) ∧
    (truthy v = false → (respond hE (.returns v)).1 = [Event.handlerRun]) := by
  refine ⟨?_, ?_, ?_, ?_⟩ <;>
    cases hE <;>
    first
    | (intro ht hn
       cases v <;> simp_all [respond, normalizeResult, truthy, hasThen])
    | (intro ht
       cases v <;> simp_all [respond, normalizeResult, truthy, hasThen])
    | cases v <;> simp [respond, normalizeResult, truthy, hasThen]

/-- C4 witness: instantiating the amended normalization theorem at the plain
truthy value `obj` and at `undefined`. -/
theorem result_forwarding_amended_witness :
    truthy .obj = true ∧ hasThen .obj = false ∧
    (respond true (.returns .obj)).1 =
      [Event.handlerRun, Event.envelopeReturn .obj] ∧
    truthy .undefined = false ∧
    (respond true (.returns .undefined)).1 = [Event.handlerRun] :=
  ⟨rfl, rfl, (result_forwarding_amended .obj true).2.2.1 rfl rfl, rfl,
    (result_forwarding_amended .undefined true).2.2.2 rfl⟩

/-- C5: a handler that throws synchronously has the exception caught and
turned into the handler's result — forwarded to the envelope's outcome
handler — when the absorb strategy (`handleRouteErrors`, copied into the
metadata at wiring time) is active, and has it escape the dispatcher
uncaught when it is not, both on the no-provider path and on the granted
path. -/
theorem handler_throw_strategy (e : String) (cfg : Config)
    (resource : ResourceDef) (an : String) (a : ActionDef)
    (rs : List ResourceDef) (al u : String) (r : Res) :
    (getActionMetadata cfg resource an a rs).handleErrors =
      cfg.handleRouteErrors ∧
    respond true (.throws e) =
      ([Event.handlerRun, Event.envelopeReturn (.errObj e)], none) ∧
    respond false (.throws e) = ([Event.handlerRun], some e) ∧
    (dispatch none ⟨al, true, u⟩ (.throws e) r).uncaught = none ∧
    countEvent (.envelopeReturn (.errObj e))
      (dispatch none ⟨al, true, u⟩ (.throws e) r).events = 1 ∧
    (dispatch none ⟨al, false, u⟩ (.throws e) r).uncaught = some e ∧
    (dispatch (some (.resolved true)) ⟨al, false, u⟩ (.throws e) r).uncaught =
      some e := by
  refine ⟨rfl, rfl, rfl, ?_, ?_, ?_, ?_⟩ <;>
    simp [dispatch, checkPermissionFor, getPermissionCheck, Res.onceFinish,
      respond, normalizeResult, truthy, hasThen, countEvent]

/-- C6: exactly one once-listener recording the request-duration timer is
registered, so the timer records nothing during dispatch, records exactly
once when the response finishes — whichever branch (denied, granted,
no-provider, handler error) the request took and however many asynchronous
hops occurred — and records nothing more if the finish event fires again. -/
theorem request_timer_once (auth : Option ProviderOutcome)
    (meta : ActionMetadata) (h : HandlerBehavior) (r : Res)
    (hr : r.finishListeners = 0) :
    countEvent .apiTimer (dispatch auth meta h r).events = 0 ∧
    countEvent .apiTimer ((dispatch auth meta h r).res.finish).1 = 1 ∧
    (((dispatch auth meta h r).res.finish).2.finish).1 = [] := by
  have hz : ∀ hE hb, countEvent .apiTimer (respond hE hb).1 = 0 := fun hE hb =>
    countEvent_respond_eq_zero .apiTimer hE hb (by intro w; simp) (by simp)
  have hfin : ∀ (x : Res), x.finishListeners = r.finishListeners + 1 →
      countEvent .apiTimer x.finish.1 = 1 ∧ (x.finish.2.finish).1 = [] := by
    intro x hx
    simp [Res.finish, hx, hr, countEvent, List.replicate]
  rcases auth with _ | p
  · exact ⟨by simp [dispatch, Res.onceFinish, hz],
      (hfin _ (by simp [dispatch, Res.onceFinish])).1,
      (hfin _ (by simp [dispatch, Res.onceFinish])).2⟩
  · rcases p with g | e
    · cases g <;> by_cases hh : r.headerSent <;>
        refine ⟨?_, (hfin _ ?_).1, (hfin _ ?_).2⟩ <;>
        simp [dispatch, checkPermissionFor, getPermissionCheck, Res.onceFinish,
          Res.sendStatus, countEvent, hz, hh]
    · by_cases hh : r.headerSent <;>
        refine ⟨?_, (hfin _ ?_).1, (hfin _ ?_).2⟩ <;>
        simp [dispatch, checkPermissionFor, getPermissionCheck, Res.onceFinish,
          Res.sendStatus, countEvent, hz, hh]

/-- C6 witness: the timer property at a concrete fresh response on the
no-provider branch. -/
theorem request_timer_once_witness :
    Res.finishListeners ⟨false, [], 0⟩ = 0 ∧
    countEvent .apiTimer
      (dispatch none ⟨"a.b", false, "/u"⟩ (.returns .obj) ⟨false, [], 0⟩).events
      = 0 ∧
    countEvent .apiTimer
      ((dispatch none ⟨"a.b", false, "/u"⟩ (.returns .obj)
        ⟨false, [], 0⟩).res.finish).1 = 1 ∧
    (((dispatch none ⟨"a.b", false, "/u"⟩ (.returns .obj)
        ⟨false, [], 0⟩).res.finish).2.finish).1 = [] :=
  ⟨rfl, request_timer_once none ⟨"a.b", false, "/u"⟩ (.returns .obj)
    ⟨false, [], 0⟩ rfl⟩

/-- C9: with no authorization provider configured the handler is invoked
directly (exactly once), none of the authorization counters — attempt,
grant, reject, error — record, no 403 (indeed no response) is produced by
the dispatcher, and the permission-check closure attached to the request is
undefined. -/
theorem no_auth_direct_invoke (meta : ActionMetadata) (h : HandlerBehavior)
    (r : Res) :
    countEvent .handlerRun (dispatch none meta h r).events = 1 ∧
    countEvent .authAttempt (dispatch none meta h r).events = 0 ∧
    countEvent .authGrant (dispatch none meta h r).events = 0 ∧
    countEvent .authReject (dispatch none meta h r).events = 0 ∧
    countEvent .authError (dispatch none meta h r).events = 0 ∧
    (dispatch none meta h r).res.sent = r.sent ∧
    (dispatch none meta h r).reqCheckPermission = none ∧
    getPermissionCheck none = none := by
  have h1 := countEvent_respond_handlerRun meta.handleErrors h
  have hz : ∀ e, (∀ w, Event.envelopeReturn w ≠ e) → Event.handlerRun ≠ e →
      countEvent e (respond meta.handleErrors h).1 = 0 := fun e he hh =>
    countEvent_respond_eq_zero e meta.handleErrors h he hh
  refine ⟨?_, ?_, ?_, ?_, ?_, ?_, ?_, rfl⟩ <;>
    simp [dispatch, getPermissionCheck, Res.onceFinish, h1,
      hz .authAttempt (by intro w; simp) (by simp),
      hz .authGrant (by intro w; simp) (by simp),
      hz .authReject (by intro w; simp) (by simp),
      hz .authError (by intro w; simp) (by simp)]

/-- C10: a handler returning any falsy value — `false`, `0`, the empty
string, `null`, or `undefined` — is treated exactly like a handler that
returned nothing: the trace is just the handler invocation, with no
outcome-handler call, even though `false`, `0`, and `""` are plain
non-deferred values. -/
theorem falsy_result_swallowed (hE : Bool) :
    (respond hE (.returns (.bool false))).1 = [Event.handlerRun] ∧
    (respond hE (.returns (.num 0))).1 = [Event.handlerRun] ∧
    (respond hE (.returns (.str ""))).1 = [Event.handlerRun] ∧
    (respond hE (.returns .null)).1 = [Event.handlerRun] ∧
    (respond hE (.returns .undefined)).1 = [Event.handlerRun] ∧
    hasThen (.bool false) = false ∧ hasThen (.num 0) = false ∧
    hasThen (.str "") = false := by
  cases hE <;> decide

/-- C7 counterexample: with resource name "b" and action url "abc", no path
segment of the url is "b" — so the claim requires the resource-name segment
to be included, yielding "/api/b/abc" — yet the code's character-position
check (`indexOf` is 1) omits it and produces "/api/abc". -/
theorem default_heuristic_cex :
    specBeginsAtFirstOrSecondSeg "b" "abc" = false ∧
    strIndexOf "abc" "b" = 1 ∧
    buildActionUrl ⟨none, none, none, false⟩ "b" "get" ⟨"get", .str "abc"⟩
      ⟨"b", none, none⟩ [] = "/api/abc" ∧
    buildUrl ["api", "", "b", "abc"] = "/api/b/abc" ∧
    ("/api/abc" : String) ≠ "/api/b/abc" := by decide

/-- C7 (amended): under the default heuristic (no RegExp url pattern, no
custom url strategy) the automatic resource-name segment is omitted exactly
when the resource name first occurs in `action.url` at character position 0
or 1 (`String.indexOf` returning 0 or 1; an empty url never omits it), and
otherwise included, the result concatenating the api base, the resource's
url base, the optional resource-name segment, and the action url; in
particular resource "widgets" with action url "/widgets/:id" under the
default configuration yields "/api/widgets/:id" with no duplicated
"widgets" segment. -/
theorem default_heuristic_amended (ab ub rab rub : Option String) (hEr : Bool)
    (rn an m u : String) (rs : List ResourceDef) :
    buildActionUrl ⟨ab, ub, none, hEr⟩ rn an ⟨m, .str u⟩ ⟨rn, rab, rub⟩ rs =
      (if ¬u.isEmpty ∧ (strIndexOf u rn = 0 ∨ strIndexOf u rn = 1)
        then buildUrl [rab.getD (ab.getD "api"), rub.getD "", "", u]
        else buildUrl [rab.getD (ab.getD "api"), rub.getD "", rn, u]) ∧
    buildActionUrl ⟨none, none, none, false⟩ "widgets" "get"
      ⟨"get", .str "/widgets/:id"⟩ ⟨"widgets", none, none⟩ [] =
      "/api/widgets/:id" := by
  refine ⟨?_, by decide⟩
  cases rab <;> cases ab <;>
    simp only [buildActionUrl, Option.getD] <;>
    by_cases hu : u.isEmpty <;>
    by_cases h0 : strIndexOf u rn = 0 <;>
    by_cases h1 : strIndexOf u rn = 1 <;>
    simp [hu, h0, h1]

/-- C8: with a custom URL-strategy function configured, the route builder
calls it with `(resourceName, actionName, action, resources)`, and when the
returned url already carries the configured base path (the url base joined
with the api base) no further base is prepended — the url is only
normalized — while otherwise the computed base is prepended; in particular
a strategy returning "/api/thing" under api base "api" yields "/api/thing",
not a doubled base. -/
theorem custom_strategy_no_double_base
    (strategy : String → String → ActionDef → List ResourceDef → String)
    (ab ub : Option String) (hEr : Bool) (rn an m : String) (u : Option String)
    (resource : ResourceDef) (rs : List ResourceDef) :
    (buildActionUrl ⟨ab, ub, some strategy, hEr⟩ rn an ⟨m, actionUrlOfOpt u⟩
        resource rs =
      if hasBase ⟨ab, ub, some strategy, hEr⟩
          (strategy rn an ⟨m, actionUrlOfOpt u⟩ rs)
        then buildUrl ["", strategy rn an ⟨m, actionUrlOfOpt u⟩ rs]
        else buildUrl [resource.apiBase.getD (ab.getD "api"),
          strategy rn an ⟨m, actionUrlOfOpt u⟩ rs]) ∧
    buildActionUrl ⟨some "api", none, some (fun _ _ _ _ => "/api/thing"), false⟩
      "r" "a" ⟨"get", .absent⟩ ⟨"r", none, none⟩ [] = "/api/thing" := by
  refine ⟨?_, by decide⟩
  obtain ⟨nm, rapi, rurl⟩ := resource
  cases u <;> cases rapi <;> cases ab <;>
    simp only [buildActionUrl, actionUrlOfOpt, Option.getD] <;>
    split <;> simp_all

end Autohost
